import Mathlib

/-!
# Object-detection gateway: translation batching, upload handling, encoding

A shallow embedding of `src/image_detect/main.go`.

* External collaborators (the translation provider, the detection backend, the
  JSON binder, the multipart reader) are explicit parameters.  A collaborator
  may answer differently on every call: its answer is a function of the calls
  it has received so far and of the present call.
* Go's `(value, error)` returns are pairs of options: `none` is Go's `nil`.
* Every effect on a collaborator is recorded in a call log that is threaded
  through the functions, so that "a call was made" is a statement about data.
-/

namespace ImageDetect

/-! ## Data model -/

/-- A Go `error` value, identified by its message. -/
structure GoError where
  msg : String
deriving DecidableEq, Repr

deriving instance DecidableEq for Except

/-- A Go slice: `none` is the `nil` slice. -/
abbrev Slice (α : Type) := Option (List α)

/-- Go's builtin `len` on a slice (`len(nil) = 0`). -/
def Slice.len {α : Type} : Slice α → Nat
  | none => 0
  | some xs => xs.length

/-- Go `type Detection struct`; the `float64` confidence is carried as its 64-bit
pattern, the code never computes with it. -/
structure Detection where
  Class : String
  Confidence : Nat
  Box : Int × Int × Int × Int
deriving DecidableEq, Repr

/-- Go `type PythonResponse struct`. -/
structure PythonResponse where
  Detections : Slice Detection
  AnnotatedImage : String
deriving DecidableEq, Repr

/-- Go `type DetectionRequest struct`. -/
structure DetectionRequest where
  Image : String
deriving DecidableEq, Repr

/-- Go `type TranslateRequest struct`. -/
structure TranslateRequest where
  Detections : List String
  Lang : String
deriving DecidableEq, Repr

/-! ## Translation provider -/

/-- One candidate, `translate.Translation` of the provider library. -/
structure Translation (Tag : Type) where
  Text : String
  Source : Tag
  Model : String
deriving DecidableEq, Repr

/-- One call `Translate(ctx, inputs, target, nil)` as the provider sees it. -/
structure TranslateCall (Tag : Type) where
  inputs : List String
  target : Tag
deriving DecidableEq, Repr

/-- The translation provider behind `translateClient`: what it answers to a
call, given the calls it has already received. -/
abbrev TranslateClient (Tag : Type) :=
  List (TranslateCall Tag) → TranslateCall Tag → Except GoError (List (Translation Tag))

/-- The call `translateClient.Translate(ctx, inputs, target, nil)`: the answer,
and the call log extended by this call. -/
def Translate {Tag : Type} (translateClient : TranslateClient Tag)
    (calls : List (TranslateCall Tag)) (inputs : List String) (target : Tag) :
    Except GoError (List (Translation Tag)) × List (TranslateCall Tag) :=
  (translateClient calls ⟨inputs, target⟩, calls ++ [⟨inputs, target⟩])

/-- The body of `for i, detection := range detections` in `translateText`,
from index `i` on, `rest` being `detections[i:]`. The assignment
`translations[i] = x` is `translations.set i x`; `i` is always in range. -/
def translateLoop {Tag : Type} (translateClient : TranslateClient Tag) (langTag : Tag) :
    Nat → List String → List String → List (TranslateCall Tag) →
      (Slice String × Option GoError) × List (TranslateCall Tag)
  | _, [], translations, calls => ((some translations, none), calls)
  | i, detection :: rest, translations, calls =>
    match Translate translateClient calls [detection] langTag with
    | (Except.error err, calls1) => ((none, some err), calls1)
    | (Except.ok resp, calls1) =>
      if h : resp.length > 0 then
        translateLoop translateClient langTag (i + 1) rest
          (translations.set i (resp.get ⟨0, h⟩).Text) calls1
      else
        translateLoop translateClient langTag (i + 1) rest
          (translations.set i detection) calls1

/-- Go `func translateText(detections []string, lang string) ([]string, error)`.
Here `languageMake` is `language.Make`; `calls` is the provider's call log on entry. -/
def translateText {Tag : Type} (languageMake : String → Tag)
    (translateClient : TranslateClient Tag) (calls : List (TranslateCall Tag))
    (detections : List String) (lang : String) :
    (Slice String × Option GoError) × List (TranslateCall Tag) :=
  let translations := List.replicate detections.length ""
  let langTag := languageMake lang
  translateLoop translateClient langTag 0 detections translations calls

/-! ## HTTP responses -/

/-- The value handed to `c.JSON`. -/
inductive Payload where
  | error (msg : String)
  | translations (ts : Slice String)
  | detections (ds : Slice PythonResponse)
deriving DecidableEq, Repr

/-- A response written by `c.JSON(status, payload)`. -/
structure Response where
  status : Nat
  payload : Payload
deriving DecidableEq, Repr

/-- Go `http.StatusOK`. -/
def StatusOK : Nat := 200

/-- Go `http.StatusBadRequest`. -/
def StatusBadRequest : Nat := 400

/-- Go `http.StatusInternalServerError`. -/
def StatusInternalServerError : Nat := 500

/-- The `POST /translate` handler; `bind` is the outcome of
`c.ShouldBindJSON(&translateReq)`. -/
def handleTranslate {Tag : Type} (languageMake : String → Tag)
    (translateClient : TranslateClient Tag) (calls : List (TranslateCall Tag))
    (bind : Except GoError TranslateRequest) : Response × List (TranslateCall Tag) :=
  match bind with
  | Except.error _ => (⟨StatusBadRequest, Payload.error "Invalid request"⟩, calls)
  | Except.ok translateReq =>
    match translateText languageMake translateClient calls
        translateReq.Detections translateReq.Lang with
    | ((_, some _), calls1) =>
      (⟨StatusInternalServerError, Payload.error "Translation failed"⟩, calls1)
    | ((translations, none), calls1) =>
      (⟨StatusOK, Payload.translations translations⟩, calls1)

/-! ## Encoder: `base64.StdEncoding` of Go's standard library -/

/-- Modelled from the spec: the alphabet `encodeStd` of Go's `encoding/base64`
(a library the repository imports; RFC 4648 section 4), the "standard padded
base64" the upload is encoded with. -/
def encodeStd : List Char :=
  "ABCDEFGHIJKLMNOPQRSTUVWXYZabcdefghijklmnopqrstuvwxyz0123456789+/".toList

/-- Modelled from the spec: the padding character `StdPadding` of
`encoding/base64`. -/
def StdPadding : Char := '='

/-- Modelled from the spec: the table lookup `enc.encode[v]` of
`encoding/base64`, for a 6-bit value `v`. -/
def encodeChar (v : Nat) : Char := encodeStd.getD v StdPadding

/-- Modelled from the spec: the inverse table `enc.decodeMap[c]` of
`encoding/base64`, `0xFF` marking a character outside the alphabet. -/
def decodeMap (c : Char) : Nat :=
  if encodeStd.indexOf c < 64 then encodeStd.indexOf c else 0xFF

/-- Modelled from the spec: `(*Encoding).Encode` of `encoding/base64` with the
standard alphabet and padding: three bytes become four characters, a last
group of one or two bytes is padded with `=`. Bytes are naturals below 256. -/
def Encode : List Nat → List Char
  | [] => []
  | [s0] =>
    let val := s0 <<< 16
    [encodeChar ((val >>> 18) &&& 0x3F), encodeChar ((val >>> 12) &&& 0x3F),
      StdPadding, StdPadding]
  | [s0, s1] =>
    let val := s0 <<< 16 ||| s1 <<< 8
    [encodeChar ((val >>> 18) &&& 0x3F), encodeChar ((val >>> 12) &&& 0x3F),
      encodeChar ((val >>> 6) &&& 0x3F), StdPadding]
  | s0 :: s1 :: s2 :: rest =>
    let val := s0 <<< 16 ||| s1 <<< 8 ||| s2
    encodeChar ((val >>> 18) &&& 0x3F) :: encodeChar ((val >>> 12) &&& 0x3F) ::
      encodeChar ((val >>> 6) &&& 0x3F) :: encodeChar (val &&& 0x3F) :: Encode rest

/-- Modelled from the spec: `base64.StdEncoding.EncodeToString` of
`encoding/base64`. -/
def EncodeToString (src : List Nat) : String := String.mk (Encode src)

/-- Modelled from the spec: the quantum loop of `(*Encoding).Decode` of
`encoding/base64` (standard alphabet, padded, not strict) on an input without
line breaks; `none` is `CorruptInputError`. -/
def decodeQuanta : List Char → Option (List Nat)
  | [] => some []
  | c0 :: c1 :: c2 :: c3 :: rest =>
    if decodeMap c0 = 0xFF ∨ decodeMap c1 = 0xFF then none
    else if c2 = StdPadding then
      if c3 = StdPadding ∧ rest = [] then
        let val := decodeMap c0 <<< 18 ||| decodeMap c1 <<< 12
        some [(val >>> 16) % 256]
      else none
    else if decodeMap c2 = 0xFF then none
    else if c3 = StdPadding then
      if rest = [] then
        let val := decodeMap c0 <<< 18 ||| decodeMap c1 <<< 12 ||| decodeMap c2 <<< 6
        some [(val >>> 16) % 256, (val >>> 8) % 256]
      else none
    else if decodeMap c3 = 0xFF then none
    else
      let val := decodeMap c0 <<< 18 ||| decodeMap c1 <<< 12 ||| decodeMap c2 <<< 6
        ||| decodeMap c3
      (decodeQuanta rest).map
        (fun tail => (val >>> 16) % 256 :: (val >>> 8) % 256 :: (val >>> 0) % 256 :: tail)
  | _ => none

/-- Modelled from the spec: `base64.StdEncoding.DecodeString` of
`encoding/base64`, the standard decoder; it skips `\r` and `\n`. -/
def DecodeString (s : String) : Option (List Nat) :=
  decodeQuanta (s.toList.filter (fun c => !(c = '\n' || c = '\r')))

/-! ## Detection backend -/

/-- One request sent by `detectObjects`, as the backend sees it. -/
structure DetectCall where
  url : String
  contentType : String
  body : DetectionRequest
deriving DecidableEq, Repr

/-- The detection backend behind resty's `Post`: a transport error or the bytes
of the response body, given the requests it has already received. -/
abbrev Backend := List DetectCall → DetectCall → Except GoError (List Nat)

/-- The call `client.R().SetHeader(..).SetBody(..).Post(url)`: the answer, and the
request log extended by this request. -/
def Post (backend : Backend) (posts : List DetectCall) (call : DetectCall) :
    Except GoError (List Nat) × List DetectCall :=
  (backend posts call, posts ++ [call])

/-- Go `func detectObjects(imageData string) ([]PythonResponse, error)`.
Here `Unmarshal` is `json.Unmarshal` into a fresh `PythonResponse`. -/
def detectObjects (backend : Backend)
    (Unmarshal : List Nat → Except GoError PythonResponse)
    (posts : List DetectCall) (imageData : String) :
    (Slice PythonResponse × Option GoError) × List DetectCall :=
  match Post backend posts
      ⟨"http://localhost:5000/detect", "application/json", ⟨imageData⟩⟩ with
  | (Except.error err, posts1) => ((none, some err), posts1)
  | (Except.ok body, posts1) =>
    match Unmarshal body with
    | Except.error err => ((none, some err), posts1)
    | Except.ok pyResp => ((some [pyResp], none), posts1)

/-! ## Upload -/

/-- An opened `multipart.File`: what `io.Copy(buffer, fileData)` yields, the
read error or the bytes that end up in `buffer`. -/
structure MultipartFile where
  Copy : Except GoError (List Nat)

/-- A `*multipart.FileHeader`: the outcome of `file.Open()`. -/
structure FileHeader where
  Open : Except GoError MultipartFile

/-- The part of `*gin.Context` the upload handler reads: `c.FormFile(name)`. -/
structure UploadContext where
  FormFile : String → Except GoError FileHeader

/-- The `POST /upload` handler. -/
def handleUpload (backend : Backend)
    (Unmarshal : List Nat → Except GoError PythonResponse)
    (posts : List DetectCall) (c : UploadContext) : Response × List DetectCall :=
  match c.FormFile "image" with
  | Except.error _ => (⟨StatusBadRequest, Payload.error "Image upload failed"⟩, posts)
  | Except.ok file =>
    match file.Open with
    | Except.error _ =>
      (⟨StatusInternalServerError, Payload.error "Failed to open image file"⟩, posts)
    | Except.ok fileData =>
      match fileData.Copy with
      | Except.error _ =>
        (⟨StatusInternalServerError, Payload.error "Failed to read image file"⟩, posts)
      | Except.ok buffer =>
        let encodedImage := EncodeToString buffer
        match detectObjects backend Unmarshal posts encodedImage with
        | ((_, some _), posts1) =>
          (⟨StatusInternalServerError, Payload.error "Object detection failed"⟩, posts1)
        | ((detections, none), posts1) =>
          (⟨StatusOK, Payload.detections detections⟩, posts1)

/-! ## Specification vocabulary for the translation loop -/

/-- The call `translateText` issues for one label. -/
def callFor {Tag : Type} (langTag : Tag) (detection : String) : TranslateCall Tag :=
  ⟨[detection], langTag⟩

/-- The provider's answer to the call for `detections[k]`, all earlier labels
having been sent before it. -/
def answerAt {Tag : Type} (translateClient : TranslateClient Tag)
    (calls : List (TranslateCall Tag)) (langTag : Tag) (detections : List String)
    (k : Nat) : Except GoError (List (Translation Tag)) :=
  translateClient (calls ++ (detections.take k).map (callFor langTag))
    (callFor langTag (detections.getD k ""))

/-- Whether an answer is a hard error. -/
def isHardError {α : Type} : Except GoError α → Bool
  | Except.error _ => true
  | Except.ok _ => false

/-- The text chosen for a label from a non-error answer: the first candidate,
or the label itself. -/
def chosenText {Tag : Type} (detection : String) : List (Translation Tag) → String
  | [] => detection
  | t :: _ => t.Text

/-! ## Example collaborators -/

/-- A provider that knows one French word: `chat` for `cat`; it has no candidate
for any other label, and fails on the label `bird`. -/
def frenchProvider : TranslateClient String := fun _ call =>
  if call.inputs = ["cat"] then Except.ok [⟨"chat", "en", "nmt"⟩]
  else if call.inputs = ["bird"] then Except.error ⟨"provider unavailable"⟩
  else Except.ok []

/-- A provider like `frenchProvider` that also knows `chien` for `dog`. -/
def frenchProvider2 : TranslateClient String := fun _ call =>
  if call.inputs = ["cat"] then Except.ok [⟨"chat", "en", "nmt"⟩]
  else if call.inputs = ["dog"] then Except.ok [⟨"chien", "en", "nmt"⟩]
  else Except.ok []

/-- The identity, standing for `language.Make` where tags are plain strings. -/
def plainTag (lang : String) : String := lang

/-- The request `detectObjects` sends for an encoded image. -/
def detectCall (imageData : String) : DetectCall :=
  ⟨"http://localhost:5000/detect", "application/json", ⟨imageData⟩⟩

/-- Whether every element of a list is a byte. -/
def isBytes (src : List Nat) : Prop := ∀ b ∈ src, b < 256

instance instDecidableIsBytes (src : List Nat) : Decidable (isBytes src) := by
  unfold isBytes
  infer_instance

/-- A backend that cannot be reached. -/
def deadBackend : Backend := fun _ _ => Except.error ⟨"connection refused"⟩

/-- A backend that answers every request with the body `{}`. -/
def emptyObjectBackend : Backend := fun _ _ => Except.ok [123, 125]

/-- A backend that answers every request with the body `oops`. -/
def garbageBackend : Backend := fun _ _ => Except.ok [111, 111, 112, 115]

/-- A JSON decoder that knows one body: `{}` decodes to the zero
`PythonResponse`; everything else is a decode error. -/
def onlyEmptyObject (body : List Nat) : Except GoError PythonResponse :=
  if body = [123, 125] then Except.ok ⟨none, ""⟩
  else Except.error ⟨"invalid character"⟩

/-- An upload whose `image` file reads as the three bytes of `Man`. -/
def readableUpload : UploadContext :=
  ⟨fun _ => Except.ok ⟨Except.ok ⟨Except.ok [77, 97, 110]⟩⟩⟩

/-- An upload without any form file. -/
def emptyUpload : UploadContext :=
  ⟨fun _ => Except.error ⟨"http: no such file"⟩⟩

/-- An upload for which `c.FormFile("image")` succeeds and the handler's
`file.Open()` then fails. -/
def unopenableUpload : UploadContext :=
  ⟨fun _ => Except.ok ⟨Except.error ⟨"open: no such file or directory"⟩⟩⟩

/-- An upload for which `c.FormFile("image")` and `file.Open()` succeed and
`io.Copy` then fails. -/
def unreadableUpload : UploadContext :=
  ⟨fun _ => Except.ok ⟨Except.ok ⟨Except.error ⟨"unexpected EOF"⟩⟩⟩⟩

/-! ## The translation loop -/

theorem answerAt_zero {Tag : Type} (tc : TranslateClient Tag)
    (calls : List (TranslateCall Tag)) (tag : Tag) (d : String) (rest : List String) :
    answerAt tc calls tag (d :: rest) 0 = tc calls (callFor tag d) := by
  simp [answerAt]

theorem answerAt_succ {Tag : Type} (tc : TranslateClient Tag)
    (calls : List (TranslateCall Tag)) (tag : Tag) (d : String) (rest : List String)
    (j : Nat) :
    answerAt tc calls tag (d :: rest) (j + 1)
      = answerAt tc (calls ++ [callFor tag d]) tag rest j := by
  simp [answerAt, List.append_assoc]

theorem translateLoop_cons_error {Tag : Type} (tc : TranslateClient Tag) (tag : Tag)
    (i : Nat) (d : String) (rest tr : List String) (calls : List (TranslateCall Tag))
    (e : GoError) (h : tc calls (callFor tag d) = Except.error e) :
    translateLoop tc tag i (d :: rest) tr calls
      = ((none, some e), calls ++ [callFor tag d]) := by
  have h1 : tc calls ⟨[d], tag⟩ = Except.error e := h
  simp [translateLoop, Translate, h1, callFor]

theorem translateLoop_cons_ok {Tag : Type} (tc : TranslateClient Tag) (tag : Tag)
    (i : Nat) (d : String) (rest tr : List String) (calls : List (TranslateCall Tag))
    (resp : List (Translation Tag)) (h : tc calls (callFor tag d) = Except.ok resp) :
    translateLoop tc tag i (d :: rest) tr calls
      = translateLoop tc tag (i + 1) rest (tr.set i (chosenText d resp))
          (calls ++ [callFor tag d]) := by
  have h1 : tc calls ⟨[d], tag⟩ = Except.ok resp := h
  cases resp with
  | nil => simp [translateLoop, Translate, h1, callFor, chosenText]
  | cons t ts => simp [translateLoop, Translate, h1, callFor, chosenText]

/-- The loop when no answer is a hard error: it returns a slice of unchanged
length, set at `i + j` to the text chosen for `rest[j]`, and has sent one call
per label. -/
theorem translateLoop_ok {Tag : Type} (tc : TranslateClient Tag) (tag : Tag) :
    ∀ (rest : List String) (i : Nat) (tr : List String) (calls : List (TranslateCall Tag)),
      (∀ j, j < rest.length → isHardError (answerAt tc calls tag rest j) = false) →
      ∃ out : List String,
        translateLoop tc tag i rest tr calls
          = ((some out, none), calls ++ rest.map (callFor tag)) ∧
        out.length = tr.length ∧
        (∀ m, m < i → out[m]? = tr[m]?) ∧
        (∀ j resp, j < rest.length → i + j < tr.length →
          answerAt tc calls tag rest j = Except.ok resp →
          out[i + j]? = some (chosenText (rest.getD j "") resp)) := by
  intro rest
  induction rest with
  | nil =>
    intro i tr calls _
    exact ⟨tr, by simp [translateLoop], rfl, fun _ _ => rfl,
      fun j _ hj => absurd hj (Nat.not_lt_zero j)⟩
  | cons d rest ih =>
    intro i tr calls hok
    have h0 := hok 0 (Nat.succ_pos _)
    rw [answerAt_zero] at h0
    cases hresp : tc calls (callFor tag d) with
    | error e => rw [hresp] at h0; simp [isHardError] at h0
    | ok resp =>
      have hrest : ∀ j, j < rest.length →
          isHardError (answerAt tc (calls ++ [callFor tag d]) tag rest j) = false := by
        intro j hj
        rw [← answerAt_succ]
        exact hok (j + 1) (Nat.succ_lt_succ hj)
      obtain ⟨out, hrun, hlen, hlow, hset⟩ :=
        ih (i + 1) (tr.set i (chosenText d resp)) (calls ++ [callFor tag d]) hrest
      refine ⟨out, ?_, ?_, ?_, ?_⟩
      · rw [translateLoop_cons_ok tc tag i d rest tr calls resp hresp, hrun]
        simp [List.append_assoc]
      · simpa using hlen
      · intro m hm
        rw [hlow m (Nat.lt_succ_of_lt hm), List.getElem?_set_ne (Nat.ne_of_gt hm)]
      · intro j r hj hij hans
        cases j with
        | zero =>
          rw [answerAt_zero, hresp] at hans
          cases hans
          have hi : i < tr.length := by simpa using hij
          rw [Nat.add_zero, hlow i (Nat.lt_succ_self i)]
          simp [List.getElem?_set_self hi]
        | succ j =>
          rw [answerAt_succ] at hans
          have hj1 : j < rest.length := Nat.lt_of_succ_lt_succ hj
          have hij1 : i + 1 + j < (tr.set i (chosenText d resp)).length := by
            simp only [List.length_set]; omega
          have := hset j r hj1 hij1 hans
          have e1 : i + (j + 1) = i + 1 + j := by omega
          rw [e1, this]
          simp

/-- The loop when the first hard error is the answer for `rest[k]`: it returns
`nil` with that error and has sent the calls for `rest[0..k]` only. -/
theorem translateLoop_error {Tag : Type} (tc : TranslateClient Tag) (tag : Tag) :
    ∀ (rest : List String) (i : Nat) (tr : List String) (calls : List (TranslateCall Tag))
      (k : Nat) (e : GoError),
      k < rest.length →
      answerAt tc calls tag rest k = Except.error e →
      (∀ j, j < k → isHardError (answerAt tc calls tag rest j) = false) →
      translateLoop tc tag i rest tr calls
        = ((none, some e), calls ++ (rest.take (k + 1)).map (callFor tag)) := by
  intro rest
  induction rest with
  | nil => intro i tr calls k e hk; exact absurd hk (Nat.not_lt_zero k)
  | cons d rest ih =>
    intro i tr calls k e hk herr hbefore
    cases k with
    | zero =>
      rw [answerAt_zero] at herr
      rw [translateLoop_cons_error tc tag i d rest tr calls e herr]
      simp
    | succ k =>
      have h0 := hbefore 0 (Nat.succ_pos k)
      rw [answerAt_zero] at h0
      cases hresp : tc calls (callFor tag d) with
      | error e0 => rw [hresp] at h0; simp [isHardError] at h0
      | ok resp =>
        rw [answerAt_succ] at herr
        have hb : ∀ j, j < k →
            isHardError (answerAt tc (calls ++ [callFor tag d]) tag rest j) = false := by
          intro j hj
          rw [← answerAt_succ]
          exact hbefore (j + 1) (Nat.succ_lt_succ hj)
        rw [translateLoop_cons_ok tc tag i d rest tr calls resp hresp,
          ih (i + 1) _ _ k e (Nat.lt_of_succ_lt_succ hk) herr hb]
        simp [List.append_assoc]

/-- Among the answers for `n` labels either none is a hard error or there is a
first one that is. -/
theorem first_hard_error {α : Type} (ans : Nat → Except GoError α) (n : Nat) :
    (∀ j, j < n → isHardError (ans j) = false) ∨
    ∃ k e, k < n ∧ ans k = Except.error e ∧ ∀ j, j < k → isHardError (ans j) = false := by
  induction n with
  | zero => exact Or.inl (fun j hj => absurd hj (Nat.not_lt_zero j))
  | succ n ih =>
    rcases ih with hall | ⟨k, e, hk, he, hb⟩
    · cases hn : ans n with
      | error e => exact Or.inr ⟨n, e, Nat.lt_succ_self n, hn, hall⟩
      | ok r =>
        refine Or.inl (fun j hj => ?_)
        rcases Nat.lt_succ_iff_lt_or_eq.mp hj with hlt | heq
        · exact hall j hlt
        · subst heq; rw [hn]; rfl
    · exact Or.inr ⟨k, e, Nat.lt_succ_of_lt hk, he, hb⟩

theorem ok_of_not_hard {α : Type} (a : Except GoError α) (h : isHardError a = false) :
    ∃ r, a = Except.ok r := by
  cases a with
  | error e => simp [isHardError] at h
  | ok r => exact ⟨r, rfl⟩

/-- When no answer is a hard error `translateText` returns, without error, a
slice as long as the input whose entry `j` is the text chosen for label `j`,
and has sent one call per label, in order. -/
theorem translateText_ok {Tag : Type} (mk : String → Tag) (tc : TranslateClient Tag)
    (calls : List (TranslateCall Tag)) (L : List String) (c : String)
    (hok : ∀ k, k < L.length → isHardError (answerAt tc calls (mk c) L k) = false) :
    ∃ T : List String,
      translateText mk tc calls L c
        = ((some T, none), calls ++ L.map (callFor (mk c))) ∧
      T.length = L.length ∧
      ∀ j resp, j < L.length → answerAt tc calls (mk c) L j = Except.ok resp →
        T[j]? = some (chosenText (L.getD j "") resp) := by
  obtain ⟨T, hrun, hlen, _, hset⟩ :=
    translateLoop_ok tc (mk c) L 0 (List.replicate L.length "") calls hok
  refine ⟨T, hrun, by simpa using hlen, ?_⟩
  intro j resp hj hans
  have := hset j resp hj (by simpa using hj) hans
  simpa using this

/-- When the first hard error is the answer for label `k`, `translateText`
returns `nil` with that error and has sent the calls for labels `0..k` only. -/
theorem translateText_error {Tag : Type} (mk : String → Tag) (tc : TranslateClient Tag)
    (calls : List (TranslateCall Tag)) (L : List String) (c : String) (k : Nat)
    (e : GoError) (hk : k < L.length)
    (herr : answerAt tc calls (mk c) L k = Except.error e)
    (hbefore : ∀ j, j < k → isHardError (answerAt tc calls (mk c) L j) = false) :
    translateText mk tc calls L c
      = ((none, some e), calls ++ (L.take (k + 1)).map (callFor (mk c))) :=
  translateLoop_error tc (mk c) L 0 (List.replicate L.length "") calls k e hk herr hbefore

/-! ## Claims about `translateText` and `POST /translate` -/

/-- C1, as stated, fails: for the single label `cat` and a provider that raises
a hard error, `translateText` returns the `nil` slice, of length 0, not 1. -/
theorem translateText_length_counterexample :
    Slice.len (translateText plainTag (fun _ _ => Except.error ⟨"provider unavailable"⟩)
      [] ["cat"] "fr").1.1 ≠ ["cat"].length := by
  decide

/-- C1 (amended): for every label sequence, language code and provider, if no
provider call raises a hard error then `translateText` returns, without error,
a sequence whose length is that of the label sequence (the empty sequence for
no labels). -/
theorem translateText_length {Tag : Type} (mk : String → Tag) (tc : TranslateClient Tag)
    (calls : List (TranslateCall Tag)) (L : List String) (c : String)
    (hok : ∀ k, k < L.length → isHardError (answerAt tc calls (mk c) L k) = false) :
    ∃ T : List String,
      (translateText mk tc calls L c).1 = (some T, none) ∧
      T.length = L.length ∧
      Slice.len (translateText mk tc calls L c).1.1 = L.length := by
  obtain ⟨T, hrun, hlen, _⟩ := translateText_ok mk tc calls L c hok
  refine ⟨T, by rw [hrun], hlen, ?_⟩
  rw [hrun]
  exact hlen

/-- C1 (amended) at the labels `cat`, `dog`, neither of which fails. -/
theorem translateText_length_witness :
    (∀ k, k < ["cat", "dog"].length →
      isHardError (answerAt frenchProvider [] (plainTag "fr") ["cat", "dog"] k) = false) ∧
    ∃ T : List String,
      (translateText plainTag frenchProvider [] ["cat", "dog"] "fr").1 = (some T, none) ∧
      T.length = ["cat", "dog"].length ∧
      Slice.len (translateText plainTag frenchProvider [] ["cat", "dog"] "fr").1.1
        = ["cat", "dog"].length :=
  ⟨by decide, translateText_length plainTag frenchProvider [] ["cat", "dog"] "fr" (by decide)⟩

/-- C2: if no provider call raises a hard error and the provider has no candidate
for label `i`, the result at `i` is the label itself; and the result at every
other index is what it is under any provider `tc2` that gives some other
non-error answer to the call for label `i` and the same answers to the calls
for the other labels. -/
theorem translateText_fallback {Tag : Type} (mk : String → Tag)
    (tc tc2 : TranslateClient Tag) (calls : List (TranslateCall Tag))
    (L : List String) (c : String) (i : Nat) (hi : i < L.length)
    (hok : ∀ k, k < L.length → isHardError (answerAt tc calls (mk c) L k) = false)
    (hother : isHardError (answerAt tc2 calls (mk c) L i) = false)
    (hempty : answerAt tc calls (mk c) L i = Except.ok [])
    (hsame : ∀ j, j < L.length → j ≠ i →
      answerAt tc2 calls (mk c) L j = answerAt tc calls (mk c) L j) :
    ∃ T T2 : List String,
      (translateText mk tc calls L c).1 = (some T, none) ∧
      (translateText mk tc2 calls L c).1 = (some T2, none) ∧
      T[i]? = L[i]? ∧
      ∀ j, j < L.length → j ≠ i → T[j]? = T2[j]? := by
  have hok2 : ∀ k, k < L.length →
      isHardError (answerAt tc2 calls (mk c) L k) = false := by
    intro k hk
    by_cases hki : k = i
    · rw [hki]; exact hother
    · rw [hsame k hk hki]; exact hok k hk
  obtain ⟨T, hrun, _, hset⟩ := translateText_ok mk tc calls L c hok
  obtain ⟨T2, hrun2, _, hset2⟩ := translateText_ok mk tc2 calls L c hok2
  refine ⟨T, T2, by rw [hrun], by rw [hrun2], ?_, ?_⟩
  · rw [hset i [] hi hempty]
    simp [chosenText, List.getD, List.getElem?_eq_getElem hi]
  · intro j hj hne
    obtain ⟨r, hr⟩ := ok_of_not_hard _ (hok j hj)
    rw [hset j r hj hr, hset2 j r hj (by rw [hsame j hj hne, hr])]

/-- C2 at the labels `cat`, `dog` and index 1: `dog` has no candidate under
`frenchProvider` and the candidate `chien` under `frenchProvider2`. -/
theorem translateText_fallback_witness :
    (1 < ["cat", "dog"].length) ∧
    (∀ k, k < ["cat", "dog"].length →
      isHardError (answerAt frenchProvider [] (plainTag "fr") ["cat", "dog"] k) = false) ∧
    isHardError (answerAt frenchProvider2 [] (plainTag "fr") ["cat", "dog"] 1) = false ∧
    answerAt frenchProvider [] (plainTag "fr") ["cat", "dog"] 1 = Except.ok [] ∧
    (∀ j, j < ["cat", "dog"].length → j ≠ 1 →
      answerAt frenchProvider2 [] (plainTag "fr") ["cat", "dog"] j
        = answerAt frenchProvider [] (plainTag "fr") ["cat", "dog"] j) ∧
    ∃ T T2 : List String,
      (translateText plainTag frenchProvider [] ["cat", "dog"] "fr").1 = (some T, none) ∧
      (translateText plainTag frenchProvider2 [] ["cat", "dog"] "fr").1 = (some T2, none) ∧
      T[1]? = ["cat", "dog"][1]? ∧
      ∀ j, j < ["cat", "dog"].length → j ≠ 1 → T[j]? = T2[j]? :=
  ⟨by decide, by decide, by decide, by decide, by decide,
    translateText_fallback plainTag frenchProvider frenchProvider2 [] ["cat", "dog"] "fr" 1
      (by decide) (by decide) (by decide) (by decide) (by decide)⟩

/-- C3: if the provider call for at least one label raises a hard error then
`translateText` returns an error together with the `nil` slice, whatever was
translated before; and `translateText` returns an error only if the provider
call for some label raises a hard error. -/
theorem translateText_hard_error {Tag : Type} (mk : String → Tag)
    (tc : TranslateClient Tag) (calls : List (TranslateCall Tag))
    (L : List String) (c : String) :
    ((∃ k, k < L.length ∧ isHardError (answerAt tc calls (mk c) L k) = true) →
      ∃ e, (translateText mk tc calls L c).1 = (none, some e)) ∧
    ((translateText mk tc calls L c).1.2 ≠ none →
      ∃ k, k < L.length ∧ isHardError (answerAt tc calls (mk c) L k) = true) := by
  rcases first_hard_error (answerAt tc calls (mk c) L) L.length with hall | ⟨k, e, hk, he, hb⟩
  · constructor
    · rintro ⟨k, hk, hbad⟩
      rw [hall k hk] at hbad
      cases hbad
    · intro hne
      obtain ⟨T, hrun, _⟩ := translateText_ok mk tc calls L c hall
      rw [hrun] at hne
      exact absurd rfl hne
  · constructor
    · intro _
      exact ⟨e, by rw [translateText_error mk tc calls L c k e hk he hb]⟩
    · intro _
      exact ⟨k, hk, by rw [he]; rfl⟩

/-- C3 at the labels `cat`, `bird`, `dog`: the call for `bird` fails after `cat`
was translated. -/
theorem translateText_hard_error_witness :
    ((∃ k, k < ["cat", "bird", "dog"].length ∧
        isHardError (answerAt frenchProvider [] (plainTag "fr") ["cat", "bird", "dog"] k)
          = true) ∧
      ∃ e, (translateText plainTag frenchProvider [] ["cat", "bird", "dog"] "fr").1
        = (none, some e)) ∧
    ((translateText plainTag frenchProvider [] ["cat", "bird", "dog"] "fr").1.2 ≠ none ∧
      ∃ k, k < ["cat", "bird", "dog"].length ∧
        isHardError (answerAt frenchProvider [] (plainTag "fr") ["cat", "bird", "dog"] k)
          = true) :=
  ⟨⟨⟨1, by decide, by decide⟩,
      (translateText_hard_error plainTag frenchProvider [] ["cat", "bird", "dog"] "fr").1
        ⟨1, by decide, by decide⟩⟩,
    ⟨by decide,
      (translateText_hard_error plainTag frenchProvider [] ["cat", "bird", "dog"] "fr").2
        (by decide)⟩⟩

/-- C4: for a well-formed `/translate` request with labels `L` and language `c`
for which no provider call raises a hard error, the handler responds 200 with
translations `T`, as many as labels, where `T[i]` is the text of the first
candidate returned for `L[i]` when there is one and `L[i]` otherwise. -/
theorem handleTranslate_ok {Tag : Type} (mk : String → Tag)
    (tc : TranslateClient Tag) (calls : List (TranslateCall Tag))
    (L : List String) (c : String)
    (hok : ∀ k, k < L.length → isHardError (answerAt tc calls (mk c) L k) = false) :
    ∃ T : List String,
      (handleTranslate mk tc calls (Except.ok ⟨L, c⟩)).1
        = ⟨200, Payload.translations (some T)⟩ ∧
      T.length = L.length ∧
      ∀ i, i < L.length →
        (∀ t ts, answerAt tc calls (mk c) L i = Except.ok (t :: ts) → T[i]? = some t.Text) ∧
        (answerAt tc calls (mk c) L i = Except.ok [] → T[i]? = L[i]?) := by
  obtain ⟨T, hrun, hlen, hset⟩ := translateText_ok mk tc calls L c hok
  refine ⟨T, ?_, hlen, ?_⟩
  · simp [handleTranslate, hrun, StatusOK]
  · intro i hi
    constructor
    · intro t ts hans
      rw [hset i (t :: ts) hi hans]
      rfl
    · intro hans
      rw [hset i [] hi hans]
      simp [chosenText, List.getD, List.getElem?_eq_getElem hi]

/-- C4 at the request `cat`, `dog` into `fr`: the response carries `chat`, `dog`. -/
theorem handleTranslate_ok_witness :
    (∀ k, k < ["cat", "dog"].length →
      isHardError (answerAt frenchProvider [] (plainTag "fr") ["cat", "dog"] k) = false) ∧
    (handleTranslate plainTag frenchProvider [] (Except.ok ⟨["cat", "dog"], "fr"⟩)).1
      = ⟨200, Payload.translations (some ["chat", "dog"])⟩ ∧
    ∃ T : List String,
      (handleTranslate plainTag frenchProvider [] (Except.ok ⟨["cat", "dog"], "fr"⟩)).1
        = ⟨200, Payload.translations (some T)⟩ ∧
      T.length = ["cat", "dog"].length ∧
      ∀ i, i < ["cat", "dog"].length →
        (∀ t ts, answerAt frenchProvider [] (plainTag "fr") ["cat", "dog"] i
            = Except.ok (t :: ts) → T[i]? = some t.Text) ∧
        (answerAt frenchProvider [] (plainTag "fr") ["cat", "dog"] i = Except.ok [] →
          T[i]? = ["cat", "dog"][i]?) :=
  ⟨by decide, by decide,
    handleTranslate_ok plainTag frenchProvider [] ["cat", "dog"] "fr" (by decide)⟩

/-- C10: `translateText` sends the provider one call per label, in input order,
each carrying that single label and the tag made from the language code: all
`len(L)` of them when no call raises a hard error, and only those for labels
`0..k`, that is `k+1` calls, when the first hard error is raised at index `k`. -/
theorem translateText_calls {Tag : Type} (mk : String → Tag)
    (tc : TranslateClient Tag) (calls : List (TranslateCall Tag))
    (L : List String) (c : String) :
    ((∀ k, k < L.length → isHardError (answerAt tc calls (mk c) L k) = false) →
      (translateText mk tc calls L c).2
          = calls ++ L.map (fun l => (⟨[l], mk c⟩ : TranslateCall Tag)) ∧
        (translateText mk tc calls L c).2.length = calls.length + L.length) ∧
    (∀ k, k < L.length → isHardError (answerAt tc calls (mk c) L k) = true →
      (∀ j, j < k → isHardError (answerAt tc calls (mk c) L j) = false) →
      (translateText mk tc calls L c).2
          = calls ++ (L.take (k + 1)).map (fun l => (⟨[l], mk c⟩ : TranslateCall Tag)) ∧
        (translateText mk tc calls L c).2.length = calls.length + (k + 1)) := by
  constructor
  · intro hok
    obtain ⟨T, hrun, _⟩ := translateText_ok mk tc calls L c hok
    rw [hrun]
    exact ⟨rfl, by simp⟩
  · intro k hk hbad hb
    cases he : answerAt tc calls (mk c) L k with
    | ok r => rw [he] at hbad; cases hbad
    | error e =>
      rw [translateText_error mk tc calls L c k e hk he hb]
      refine ⟨rfl, ?_⟩
      simp only [List.length_append, List.length_map, List.length_take]
      omega

/-- C10 at the labels `cat`, `bird`, `dog` (two calls, the second fails) and at
`cat`, `dog` (two calls, none fails). -/
theorem translateText_calls_witness :
    (1 < ["cat", "bird", "dog"].length ∧
      isHardError (answerAt frenchProvider [] (plainTag "fr") ["cat", "bird", "dog"] 1)
        = true ∧
      (∀ j, j < 1 →
        isHardError (answerAt frenchProvider [] (plainTag "fr") ["cat", "bird", "dog"] j)
          = false) ∧
      (translateText plainTag frenchProvider [] ["cat", "bird", "dog"] "fr").2
        = [⟨["cat"], "fr"⟩, ⟨["bird"], "fr"⟩]) ∧
    ((∀ k, k < ["cat", "dog"].length →
        isHardError (answerAt frenchProvider [] (plainTag "fr") ["cat", "dog"] k) = false) ∧
      (translateText plainTag frenchProvider [] ["cat", "dog"] "fr").2
        = [⟨["cat"], "fr"⟩, ⟨["dog"], "fr"⟩]) :=
  ⟨⟨by decide, by decide, by decide,
      ((translateText_calls plainTag frenchProvider [] ["cat", "bird", "dog"] "fr").2 1
        (by decide) (by decide) (by decide)).1⟩,
    ⟨by decide,
      ((translateText_calls plainTag frenchProvider [] ["cat", "dog"] "fr").1
        (by decide)).1⟩⟩

/-! ## The encoder -/

theorem decodeMap_encodeChar : ∀ v, v < 64 →
    decodeMap (encodeChar v) = v ∧ encodeChar v ≠ StdPadding ∧
      encodeChar v ≠ '\n' ∧ encodeChar v ≠ '\r' := by
  decide

theorem and_3F (x : Nat) : x &&& 0x3F = x % 64 := Nat.and_pow_two_sub_one_eq_mod x 6

theorem shl_or (i x y : Nat) (h : y < 2 ^ i) : x <<< i ||| y = x * 2 ^ i + y := by
  rw [Nat.shiftLeft_eq, Nat.mul_comm x, ← Nat.mul_add_lt_is_or h]

theorem pack3 (a b c : Nat) (hb : b < 256) (hc : c < 256) :
    a <<< 16 ||| b <<< 8 ||| c = a * 65536 + b * 256 + c := by
  have h1 : a <<< 16 ||| b <<< 8 = (a * 256 + b) <<< 8 := by
    rw [shl_or 16 a (b <<< 8) (by rw [Nat.shiftLeft_eq]; omega)]
    simp only [Nat.shiftLeft_eq]; omega
  rw [h1, shl_or 8 _ c (by omega)]; omega

theorem pack4 (d0 d1 d2 d3 : Nat) (h1 : d1 < 64) (h2 : d2 < 64) (h3 : d3 < 64) :
    d0 <<< 18 ||| d1 <<< 12 ||| d2 <<< 6 ||| d3
      = d0 * 262144 + d1 * 4096 + d2 * 64 + d3 := by
  have e1 : d0 <<< 18 ||| d1 <<< 12 = (d0 * 64 + d1) <<< 12 := by
    rw [shl_or 18 d0 (d1 <<< 12) (by rw [Nat.shiftLeft_eq]; omega)]
    simp only [Nat.shiftLeft_eq]; omega
  have e2 : (d0 * 64 + d1) <<< 12 ||| d2 <<< 6 = ((d0 * 64 + d1) * 64 + d2) <<< 6 := by
    rw [shl_or 12 _ (d2 <<< 6) (by rw [Nat.shiftLeft_eq]; omega)]
    simp only [Nat.shiftLeft_eq]; omega
  rw [e1, e2, shl_or 6 _ d3 (by omega)]; omega

theorem sextet_lt (x : Nat) : x &&& 0x3F < 64 := by
  rw [and_3F]; exact Nat.mod_lt _ (by decide)

theorem decodeMap_sextet (x : Nat) : decodeMap (encodeChar (x &&& 0x3F)) = x % 64 := by
  rw [(decodeMap_encodeChar _ (sextet_lt x)).1, and_3F]

theorem sextet_ne_pad (x : Nat) : encodeChar (x &&& 0x3F) ≠ StdPadding :=
  (decodeMap_encodeChar _ (sextet_lt x)).2.1

theorem pack2 (d0 d1 : Nat) (h1 : d1 < 64) :
    d0 <<< 18 ||| d1 <<< 12 = d0 * 262144 + d1 * 4096 := by
  rw [shl_or 18 d0 (d1 <<< 12) (by rw [Nat.shiftLeft_eq]; omega), Nat.shiftLeft_eq]; omega

theorem pack3s (d0 d1 d2 : Nat) (h1 : d1 < 64) (h2 : d2 < 64) :
    d0 <<< 18 ||| d1 <<< 12 ||| d2 <<< 6 = d0 * 262144 + d1 * 4096 + d2 * 64 := by
  have e1 : d0 <<< 18 ||| d1 <<< 12 = (d0 * 64 + d1) <<< 12 := by
    rw [pack2 d0 d1 h1, Nat.shiftLeft_eq]; omega
  rw [e1, shl_or 12 _ (d2 <<< 6) (by rw [Nat.shiftLeft_eq]; omega), Nat.shiftLeft_eq]; omega

theorem decodeQuanta_Encode : ∀ src : List Nat, (∀ b ∈ src, b < 256) →
    decodeQuanta (Encode src) = some src := by
  intro src
  induction src using Encode.induct with
  | case1 => intro _; rfl
  | case2 s0 =>
    intro h
    have h0 : s0 < 256 := h s0 (by simp)
    simp only [Encode, decodeQuanta, decodeMap_sextet, sextet_ne_pad]
    rw [pack2 _ _ (Nat.mod_lt _ (by decide))]
    simp only [Nat.shiftRight_eq_div_pow, Nat.shiftLeft_eq]
    simp
    omega
  | case3 s0 s1 =>
    intro h
    have h0 : s0 < 256 := h s0 (by simp)
    have h1 : s1 < 256 := h s1 (by simp)
    simp only [Encode, decodeQuanta, decodeMap_sextet, sextet_ne_pad]
    rw [pack3s _ _ _ (Nat.mod_lt _ (by decide)) (Nat.mod_lt _ (by decide)),
      shl_or 16 s0 (s1 <<< 8) (by rw [Nat.shiftLeft_eq]; omega)]
    simp only [Nat.shiftRight_eq_div_pow, Nat.shiftLeft_eq]
    simp
    omega
  | case4 s0 s1 s2 rest ih =>
    intro h
    have h0 : s0 < 256 := h s0 (by simp)
    have h1 : s1 < 256 := h s1 (by simp)
    have h2 : s2 < 256 := h s2 (by simp)
    have hr : ∀ b ∈ rest, b < 256 := fun b hb => h b (by simp [hb])
    simp only [Encode, decodeQuanta, decodeMap_sextet, sextet_ne_pad, ih hr]
    rw [pack4 _ _ _ _ (Nat.mod_lt _ (by decide)) (Nat.mod_lt _ (by decide))
      (Nat.mod_lt _ (by decide)), pack3 s0 s1 s2 h1 h2]
    simp only [Nat.shiftRight_eq_div_pow]
    simp
    omega

theorem Encode_no_newline : ∀ src : List Nat, ∀ c ∈ Encode src, c ≠ '\n' ∧ c ≠ '\r' := by
  intro src
  induction src using Encode.induct with
  | case1 => intro c hc; simp [Encode] at hc
  | case2 s0 =>
    intro c hc
    simp only [Encode, List.mem_cons, List.mem_singleton, List.not_mem_nil, or_false] at hc
    rcases hc with rfl | rfl | rfl | rfl
    · exact (decodeMap_encodeChar _ (sextet_lt _)).2.2
    · exact (decodeMap_encodeChar _ (sextet_lt _)).2.2
    · decide
    · decide
  | case3 s0 s1 =>
    intro c hc
    simp only [Encode, List.mem_cons, List.mem_singleton, List.not_mem_nil, or_false] at hc
    rcases hc with rfl | rfl | rfl | rfl
    · exact (decodeMap_encodeChar _ (sextet_lt _)).2.2
    · exact (decodeMap_encodeChar _ (sextet_lt _)).2.2
    · exact (decodeMap_encodeChar _ (sextet_lt _)).2.2
    · decide
  | case4 s0 s1 s2 rest ih =>
    intro c hc
    simp only [Encode, List.mem_cons] at hc
    rcases hc with rfl | rfl | rfl | rfl | hc
    · exact (decodeMap_encodeChar _ (sextet_lt _)).2.2
    · exact (decodeMap_encodeChar _ (sextet_lt _)).2.2
    · exact (decodeMap_encodeChar _ (sextet_lt _)).2.2
    · exact (decodeMap_encodeChar _ (sextet_lt _)).2.2
    · exact ih c hc

/-- C5: for every byte sequence, the empty one included, `EncodeToString` yields
a string (it is a total function, hence succeeds and is deterministic) that the
standard decoder turns back into exactly that byte sequence. -/
theorem DecodeString_EncodeToString (src : List Nat) (h : isBytes src) :
    DecodeString (EncodeToString src) = some src := by
  have hf : (Encode src).filter (fun c => !(c = '\n' || c = '\r')) = Encode src := by
    rw [List.filter_eq_self]
    intro c hc
    have := Encode_no_newline src c hc
    simp [this.1, this.2]
  simp only [DecodeString, EncodeToString]
  rw [show (String.mk (Encode src)).toList = Encode src from rfl, hf]
  exact decodeQuanta_Encode src h

/-- C5 at the five bytes 77, 97, 110, 0, 255, which encode to `TWFuAP8=`. -/
theorem DecodeString_EncodeToString_witness :
    isBytes [77, 97, 110, 0, 255] ∧ EncodeToString [77, 97, 110, 0, 255] = "TWFuAP8=" ∧
      DecodeString (EncodeToString [77, 97, 110, 0, 255]) = some [77, 97, 110, 0, 255] :=
  ⟨by decide, by decide,
    DecodeString_EncodeToString [77, 97, 110, 0, 255] (by decide)⟩

/-! ## Claims about `detectObjects` and `POST /upload` -/

/-- C6: for every upload request without an `image` form field the handler
responds with status 400 and sends nothing to the detection backend: the
backend's request log is left as it was. -/
theorem handleUpload_no_image (backend : Backend)
    (Unmarshal : List Nat → Except GoError PythonResponse)
    (posts : List DetectCall) (c : UploadContext) (e : GoError)
    (h : c.FormFile "image" = Except.error e) :
    (handleUpload backend Unmarshal posts c).1
      = ⟨400, Payload.error "Image upload failed"⟩ ∧
    (handleUpload backend Unmarshal posts c).2 = posts := by
  simp [handleUpload, h, StatusBadRequest]

/-- C6 at an upload without any form file. -/
theorem handleUpload_no_image_witness :
    emptyUpload.FormFile "image" = Except.error ⟨"http: no such file"⟩ ∧
    (handleUpload emptyObjectBackend onlyEmptyObject [] emptyUpload).1
      = ⟨400, Payload.error "Image upload failed"⟩ ∧
    (handleUpload emptyObjectBackend onlyEmptyObject [] emptyUpload).2 = [] :=
  ⟨rfl, handleUpload_no_image emptyObjectBackend onlyEmptyObject [] emptyUpload
    ⟨"http: no such file"⟩ rfl⟩

/-- C7, as stated, fails: an upload whose `image` field `c.FormFile` returns but
whose `file.Open()` fails is answered with status 500, not 400, and so is one
whose file opens but whose bytes cannot be read. -/
theorem handleUpload_unreadable_counterexample :
    (handleUpload emptyObjectBackend onlyEmptyObject [] unopenableUpload).1.status ≠ 400 ∧
    (handleUpload emptyObjectBackend onlyEmptyObject [] unreadableUpload).1.status ≠ 400 := by
  decide

/-- C7 (amended): for every upload request for which `c.FormFile("image")`
succeeds and then `file.Open()` fails, or `file.Open()` succeeds and `io.Copy`
fails, the handler responds with status 500 and an error payload, and sends
nothing to the detection backend. What a request gets whose `c.FormFile` fails
is C6: status 400. -/
theorem handleUpload_unreadable (backend : Backend)
    (Unmarshal : List Nat → Except GoError PythonResponse)
    (posts : List DetectCall) (c : UploadContext) (file : FileHeader)
    (hfile : c.FormFile "image" = Except.ok file)
    (hbad : (∃ e, file.Open = Except.error e) ∨
      (∃ fileData e, file.Open = Except.ok fileData ∧ fileData.Copy = Except.error e)) :
    (handleUpload backend Unmarshal posts c).1.status = 500 ∧
    (∃ msg, (handleUpload backend Unmarshal posts c).1.payload = Payload.error msg) ∧
    (handleUpload backend Unmarshal posts c).2 = posts := by
  rcases hbad with ⟨e, ho⟩ | ⟨fileData, e, ho, hc⟩
  · simp [handleUpload, hfile, ho, StatusInternalServerError]
  · simp [handleUpload, hfile, ho, hc, StatusInternalServerError]

/-- C7 (amended) at an upload whose form file is returned and opens but cannot
be read. -/
theorem handleUpload_unreadable_witness :
    unreadableUpload.FormFile "image" = Except.ok ⟨Except.ok ⟨Except.error ⟨"unexpected EOF"⟩⟩⟩ ∧
    (∃ fileData e,
      (⟨Except.ok ⟨Except.error ⟨"unexpected EOF"⟩⟩⟩ : FileHeader).Open = Except.ok fileData ∧
        fileData.Copy = Except.error e) ∧
    (handleUpload emptyObjectBackend onlyEmptyObject [] unreadableUpload).1.status = 500 ∧
    (∃ msg, (handleUpload emptyObjectBackend onlyEmptyObject [] unreadableUpload).1.payload
      = Payload.error msg) ∧
    (handleUpload emptyObjectBackend onlyEmptyObject [] unreadableUpload).2 = [] :=
  ⟨rfl, ⟨⟨Except.error ⟨"unexpected EOF"⟩⟩, ⟨"unexpected EOF"⟩, rfl, rfl⟩,
    handleUpload_unreadable emptyObjectBackend onlyEmptyObject [] unreadableUpload
      ⟨Except.ok ⟨Except.error ⟨"unexpected EOF"⟩⟩⟩ rfl
      (Or.inr ⟨⟨Except.error ⟨"unexpected EOF"⟩⟩, ⟨"unexpected EOF"⟩, rfl, rfl⟩)⟩

/-- C8: for every readable upload, if the backend call fails in transport or the
response body fails to decode, `detectObjects` returns an error with the `nil`
slice and the handler responds 500 with the one payload
`Object detection failed`, whichever failure it was and whatever the error. -/
theorem handleUpload_detection_failed (backend : Backend)
    (Unmarshal : List Nat → Except GoError PythonResponse)
    (posts : List DetectCall) (c : UploadContext) (file : FileHeader)
    (fileData : MultipartFile) (B : List Nat)
    (hfile : c.FormFile "image" = Except.ok file)
    (hopen : file.Open = Except.ok fileData)
    (hcopy : fileData.Copy = Except.ok B)
    (hfail : (∃ e, backend posts (detectCall (EncodeToString B)) = Except.error e) ∨
      (∃ body e, backend posts (detectCall (EncodeToString B)) = Except.ok body ∧
        Unmarshal body = Except.error e)) :
    (∃ e, (detectObjects backend Unmarshal posts (EncodeToString B)).1 = (none, some e)) ∧
    (handleUpload backend Unmarshal posts c).1
      = ⟨500, Payload.error "Object detection failed"⟩ := by
  have hd : ∃ e, (detectObjects backend Unmarshal posts (EncodeToString B)).1
      = (none, some e) := by
    rcases hfail with ⟨e, hb⟩ | ⟨body, e, hb, hu⟩
    · have hb1 : backend posts
          ⟨"http://localhost:5000/detect", "application/json", ⟨EncodeToString B⟩⟩
            = Except.error e := hb
      exact ⟨e, by simp [detectObjects, Post, hb1]⟩
    · have hb1 : backend posts
          ⟨"http://localhost:5000/detect", "application/json", ⟨EncodeToString B⟩⟩
            = Except.ok body := hb
      exact ⟨e, by simp [detectObjects, Post, hb1, hu]⟩
  obtain ⟨e, he⟩ := hd
  refine ⟨⟨e, he⟩, ?_⟩
  have hsplit : detectObjects backend Unmarshal posts (EncodeToString B)
      = ((none, some e), (detectObjects backend Unmarshal posts (EncodeToString B)).2) := by
    rw [← he]
  simp only [handleUpload, hfile, hopen, hcopy]
  rw [hsplit]
  rfl

/-- C8 at a readable upload, once with an unreachable backend and once with a
backend whose body does not decode: the response is the same. -/
theorem handleUpload_detection_failed_witness :
    (readableUpload.FormFile "image" = Except.ok ⟨Except.ok ⟨Except.ok [77, 97, 110]⟩⟩ ∧
      (∃ e, deadBackend [] (detectCall (EncodeToString [77, 97, 110])) = Except.error e) ∧
      (∃ e, (detectObjects deadBackend onlyEmptyObject [] (EncodeToString [77, 97, 110])).1
        = (none, some e)) ∧
      (handleUpload deadBackend onlyEmptyObject [] readableUpload).1
        = ⟨500, Payload.error "Object detection failed"⟩) ∧
    ((∃ body e, garbageBackend [] (detectCall (EncodeToString [77, 97, 110]))
          = Except.ok body ∧ onlyEmptyObject body = Except.error e) ∧
      (∃ e, (detectObjects garbageBackend onlyEmptyObject [] (EncodeToString [77, 97, 110])).1
        = (none, some e)) ∧
      (handleUpload garbageBackend onlyEmptyObject [] readableUpload).1
        = ⟨500, Payload.error "Object detection failed"⟩) :=
  ⟨⟨rfl, ⟨⟨"connection refused"⟩, rfl⟩,
      handleUpload_detection_failed deadBackend onlyEmptyObject [] readableUpload
        ⟨Except.ok ⟨Except.ok [77, 97, 110]⟩⟩ ⟨Except.ok [77, 97, 110]⟩ [77, 97, 110]
        rfl rfl rfl (Or.inl ⟨⟨"connection refused"⟩, rfl⟩)⟩,
    ⟨⟨[111, 111, 112, 115], ⟨"invalid character"⟩, rfl, by decide⟩,
      handleUpload_detection_failed garbageBackend onlyEmptyObject [] readableUpload
        ⟨Except.ok ⟨Except.ok [77, 97, 110]⟩⟩ ⟨Except.ok [77, 97, 110]⟩ [77, 97, 110]
        rfl rfl rfl
        (Or.inr ⟨[111, 111, 112, 115], ⟨"invalid character"⟩, rfl, by decide⟩)⟩⟩

/-- C9: for every readable upload with bytes `B` for which the backend returns a
body that decodes to `R` (an `R` without detections included), the backend is
sent exactly one request, carrying `EncodeToString B` as the image, and the
handler responds 200 with the one-element array holding `R` unchanged. -/
theorem handleUpload_ok (backend : Backend)
    (Unmarshal : List Nat → Except GoError PythonResponse)
    (posts : List DetectCall) (c : UploadContext) (file : FileHeader)
    (fileData : MultipartFile) (B body : List Nat) (R : PythonResponse)
    (hfile : c.FormFile "image" = Except.ok file)
    (hopen : file.Open = Except.ok fileData)
    (hcopy : fileData.Copy = Except.ok B)
    (hbody : backend posts (detectCall (EncodeToString B)) = Except.ok body)
    (hdecode : Unmarshal body = Except.ok R) :
    (handleUpload backend Unmarshal posts c).1 = ⟨200, Payload.detections (some [R])⟩ ∧
    (handleUpload backend Unmarshal posts c).2
      = posts ++ [⟨"http://localhost:5000/detect", "application/json",
          ⟨EncodeToString B⟩⟩] := by
  have hb1 : backend posts
      ⟨"http://localhost:5000/detect", "application/json", ⟨EncodeToString B⟩⟩
        = Except.ok body := hbody
  simp [handleUpload, hfile, hopen, hcopy, detectObjects, Post, hb1, hdecode, StatusOK]

/-- C9 at a readable upload and a backend answering with the empty JSON object,
which decodes to a result without detections. -/
theorem handleUpload_ok_witness :
    readableUpload.FormFile "image" = Except.ok ⟨Except.ok ⟨Except.ok [77, 97, 110]⟩⟩ ∧
    emptyObjectBackend [] (detectCall (EncodeToString [77, 97, 110])) = Except.ok [123, 125] ∧
    onlyEmptyObject [123, 125] = Except.ok ⟨none, ""⟩ ∧
    (handleUpload emptyObjectBackend onlyEmptyObject [] readableUpload).1
      = ⟨200, Payload.detections (some [⟨none, ""⟩])⟩ ∧
    (handleUpload emptyObjectBackend onlyEmptyObject [] readableUpload).2
      = [] ++ [⟨"http://localhost:5000/detect", "application/json",
          ⟨EncodeToString [77, 97, 110]⟩⟩] :=
  ⟨rfl, rfl, by decide,
    handleUpload_ok emptyObjectBackend onlyEmptyObject [] readableUpload
      ⟨Except.ok ⟨Except.ok [77, 97, 110]⟩⟩ ⟨Except.ok [77, 97, 110]⟩ [77, 97, 110]
      [123, 125] ⟨none, ""⟩ rfl rfl rfl rfl (by decide)⟩

end ImageDetect
